import Mathlib

/-!
Shallow embedding of the core of `bot_v5.py` (Pokébot TCG): per-user
sliding-window rate limiting, result cache, in-flight request deduplication
with bounded retries, card disambiguation, and the lookup composition.

Conventions of the embedding:
* Python `time.time()` floats become rationals (only comparison and
  subtraction of timestamps occur in the source).
* A card JSON object is modelled by the fields the core reads (`set.id`,
  `set.printedTotal`) plus a flag recording whether any other key is present,
  which is what Python dict truthiness of a card depends on.
* `printedTotal` values are either JSON integers or some non-integer value;
  the source's `isinstance(pt, int)` test distinguishes exactly these, and a
  non-integer JSON value in that field compares unequal to the user's `int`.
-/

namespace Pokebot

/-- A value found under the `printedTotal` key: a JSON integer, or any
non-integer value (string, fractional number, object, ...). -/
inductive PTVal where
  | int (n : ℤ)
  | naoInteiro
  deriving DecidableEq, Repr

/-- The `set` object of a card, as read by the core: `id` and `printedTotal`
keys, each possibly absent.  A `set` key that is missing, `None`, or an empty
object is modelled as `Option.none` at the card level or as both fields
absent here (this is what `c.get('set') or {}` collapses it to). -/
structure CardSet where
  id : Option String
  printedTotal : Option PTVal
  deriving DecidableEq, Repr

/-- A card JSON object.  `outros` records whether the object carries keys
other than `set` (name, number, rarity, images, ...), so that Python dict
truthiness (`if carta:`) is decidable from the model. -/
structure Card where
  set : Option CardSet
  outros : Bool
  deriving DecidableEq, Repr

/-- Python truthiness of a card dict: non-empty. -/
def Card.truthy (c : Card) : Bool :=
  c.set.isSome || c.outros

/-- Source helper `sid(c)`: `(c.get('set') or {}).get('id')`. -/
def sid (c : Card) : Option String :=
  (c.set.getD ⟨none, none⟩).id

/-- Source helper `pt(c)`: `(c.get('set') or {}).get('printedTotal')`. -/
def pt (c : Card) : Option PTVal :=
  (c.set.getD ⟨none, none⟩).printedTotal

/-- The truthy set identifier of a card: its `set.id` when present and not
the empty string, which is exactly what the `if x` filter in the source's
set comprehensions keeps. -/
def sidPresente (c : Card) : Option String :=
  match sid c with
  | some s => if s = "" then none else some s
  | none => none

/-- The distinct truthy set identifiers of a candidate list:
`{x for x in (sid(c) for c in cartas) if x}`.  The length of the result is
the cardinality of the Python set. -/
def setIdsUnicos (cartas : List Card) : List String :=
  (cartas.filterMap sidPresente).dedup

/-- Test `pt(c) == total_usuario` for a Python `int` total: only a JSON integer
equal to the total satisfies it. -/
def ptIgual (v : Option PTVal) (total : ℤ) : Bool :=
  match v with
  | some (.int n) => n = total
  | _ => false

/-- Test `isinstance(pt(c), int) and abs(pt(c) - total) <= 1`. -/
def ptTolerante (v : Option PTVal) (total : ℤ) : Bool :=
  match v with
  | some (.int n) => (n - total).natAbs ≤ 1
  | _ => false

/-- Subset `exatos`: candidates whose `printedTotal` equals the user's total. -/
def exatos (cartas : List Card) (total : ℤ) : List Card :=
  cartas.filter fun c => ptIgual (pt c) total

/-- Subset `tol`: candidates whose integer `printedTotal` is within ±1 of the
user's total. -/
def tol (cartas : List Card) (total : ℤ) : List Card :=
  cartas.filter fun c => ptTolerante (pt c) total

/-- Function `selecionar_carta(cartas_encontradas, total_usuario)` from the source:
rule 1 (single truthy set id over the whole list), rule 2 (exact
`printedTotal` match, unique or with a single set id), rule 3 (±1 tolerance,
unique or with a single set id), otherwise `None`.  Indexing `l[0]` is
rendered as `l.head?`; every branch that indexes is guarded so the head
exists. -/
def selecionar_carta (cartas_encontradas : List Card) (total_usuario : ℤ) :
    Option Card :=
  if (setIdsUnicos cartas_encontradas).length = 1 then
    cartas_encontradas.head?
  else
    let ex := exatos cartas_encontradas total_usuario
    if ex.length = 1 then
      ex.head?
    else if 1 < ex.length ∧ (setIdsUnicos ex).length = 1 then
      ex.head?
    else
      let tl := tol cartas_encontradas total_usuario
      if tl.length = 1 then
        tl.head?
      else if 1 < tl.length ∧ (setIdsUnicos tl).length = 1 then
        tl.head?
      else
        none

/-- A card with a given truthy set id and an integer printed total, used in
concrete test inputs. -/
def mkCarta (s : String) (n : ℤ) : Card :=
  { set := some { id := some s, printedTotal := some (.int n) }, outros := true }

/-- Constant `MAX_CHAMADAS = 10`: per-user call budget of the rate limiter. -/
def MAX_CHAMADAS : ℕ := 10

/-- Constant `INTERVALO_SEGUNDOS = 60`: the sliding window of the rate limiter. -/
def INTERVALO_SEGUNDOS : ℚ := 60

/-- Function `pode_fazer_requisicao` acting on one user's deque of timestamps, given
the current clock `agora`: pop from the front while the front entry is older
than `INTERVALO_SEGUNDOS`, then admit (appending `agora`) exactly when fewer
than `MAX_CHAMADAS` entries remain.  Returns the decision and the updated
deque. -/
def pode_fazer_requisicao (agora : ℚ) (dq : List ℚ) : Bool × List ℚ :=
  let dq2 := dq.dropWhile fun t => decide (agora - t > INTERVALO_SEGUNDOS)
  if dq2.length < MAX_CHAMADAS then (true, dq2 ++ [agora]) else (false, dq2)

/-- Run the rate limiter over a sequence of call instants of one user,
starting from deque `dq`; returns the timestamps of the admitted calls (with
multiplicity, in order). -/
def admitidas (dq : List ℚ) : List ℚ → List ℚ
  | [] => []
  | t :: ts =>
    let r := pode_fazer_requisicao t dq
    if r.1 then t :: admitidas r.2 ts else admitidas r.2 ts

/-- A raw character of a user query, before normalization.  `base` is the
code of the caseless/lowercase base letter, `maiuscula` whether the rendered
character is its uppercase variant, and `acentos` how many combining
diacritic marks decorate it.  Unicode NFKD decomposes the rendered character
into the cased base letter followed by the combining marks, and
`.encode('ASCII','ignore')` drops the (non-ASCII) marks, so
`normalizar_texto` keeps exactly the cased base. -/
structure RawChar where
  base : ℕ
  maiuscula : Bool
  acentos : ℕ
  deriving DecidableEq, Repr

/-- ASCII uppercasing of a base code, applied when rendering an uppercase
variant. -/
def paraMaiuscula (n : ℕ) : ℕ :=
  if 97 ≤ n ∧ n ≤ 122 then n - 32 else n

/-- Python `str.lower()` on the ASCII output of `normalizar_texto`. -/
def pyLower (n : ℕ) : ℕ :=
  if 65 ≤ n ∧ n ≤ 90 then n + 32 else n

/-- Function `normalizar_texto`: NFKD decomposition followed by ASCII-ignore
encoding, i.e. each character reduced to its cased base letter with all
combining diacritic marks dropped. -/
def normalizar_texto (txt : List RawChar) : List ℕ :=
  txt.map fun c => if c.maiuscula then paraMaiuscula c.base else c.base

/-- The cache / deduplication key type: normalized lowercased name, number
string, user total. -/
abbrev Chave := List ℕ × String × ℤ

/-- Key `chave_cache = (nome_normalizado.lower(), numero_carta, total)`. -/
def chave_cache (nome : List RawChar) (numero : String) (total : ℤ) : Chave :=
  ((normalizar_texto nome).map pyLower, numero, total)

/-- The in-memory cache `cache_cartas`, modelled as an association list.
The source stores `(carta, time.time())` pairs but the timestamp is
write-only (discarded by `cache_get` and `listar_cache` and never used for
eviction), so entries carry only the card. -/
abbrev CacheMap := List (Chave × Card)

/-- Function `cache_get(chave)`: the card stored under the key, if any. -/
def cache_get (chave : Chave) : CacheMap → Option Card
  | [] => none
  | (k, c) :: rest => if k = chave then some c else cache_get chave rest

/-- Function `cache_set(chave, carta)`: Python dict assignment — overwrite the
existing binding or append a new one. -/
def cache_set (chave : Chave) (carta : Card) : CacheMap → CacheMap
  | [] => [(chave, carta)]
  | (k, c) :: rest =>
    if k = chave then (chave, carta) :: rest else (k, c) :: cache_set chave carta rest

/-- MAX_RETRIES: the `max_retries` default of `http_get_dedup`. -/
def MAX_RETRIES : ℕ := 3

/-- The error settled or raised by `http_get_dedup`: either an exception
caught during an attempt (`httpx` timeout / transport / HTTP-status error,
identified by an id), or the `RuntimeError("Falha desconhecida")` fallback
used when no exception was recorded. -/
inductive ErroReq where
  | httpErr (e : ℕ)
  | falhaDesconhecida
  deriving DecidableEq, Repr

/-- What one upstream attempt (one `client.get`) yields: a 2xx response
with a parseable body carrying the candidate list of its `data` field, an
HTTP 429, or an exception (timeout, transport failure, or non-2xx status
raised by `raise_for_status`). -/
inductive AttemptOutcome where
  | ok (dados : List Card)
  | rate429
  | exc (e : ℕ)
  deriving DecidableEq, Repr

/-- The retry loop of `http_get_dedup` over the outcomes of successive
attempts, carrying `last_exc`: a 429 backs off and consumes an attempt
without recording an error, an exception backs off recording it, a success
returns immediately; when the attempts run out the last recorded exception
(or the fallback) is raised.  Returns the result together with the number
of attempts actually made. -/
def loopTentativas : List AttemptOutcome → Option ErroReq →
    Except ErroReq (List Card) × ℕ
  | [], lastExc => (.error (lastExc.getD .falhaDesconhecida), 0)
  | .ok dados :: _, _ => (.ok dados, 1)
  | .rate429 :: rest, lastExc =>
    let r := loopTentativas rest lastExc
    (r.1, r.2 + 1)
  | .exc e :: rest, _ =>
    let r := loopTentativas rest (some (.httpErr e))
    (r.1, r.2 + 1)

/-- Whether an attempt failed (anything but a parseable 2xx). -/
def falhou : AttemptOutcome → Bool
  | .ok _ => false
  | _ => true

/-- The last exception recorded by a run of the attempt loop: the last
`exc` entry, if any. -/
def ultimoErro (l : List AttemptOutcome) : Option ErroReq :=
  (l.filterMap fun o =>
    match o with
    | .exc e => some (ErroReq.httpErr e)
    | _ => none).getLast?

instance {ε α : Type} [DecidableEq ε] [DecidableEq α] : DecidableEq (Except ε α)
  | .ok a, .ok b => if h : a = b then .isTrue (by rw [h]) else .isFalse (by simp [h])
  | .ok _, .error _ => .isFalse (by simp)
  | .error _, .ok _ => .isFalse (by simp)
  | .error a, .error b => if h : a = b then .isTrue (by rw [h]) else .isFalse (by simp [h])

/-- Result of one call to `http_get_dedup` for a key: what the call returns
(or raises, as `Except.error`), what value or error the key's future is
settled with, and how many upstream attempts this caller performed. -/
structure FetchResult where
  resultado : Except ErroReq (List Card)
  settled : Except ErroReq (List Card)
  tentativas : ℕ
  deriving DecidableEq, Repr

/-- Function `http_get_dedup` for one key.  `emAndamento` is the entry of
`chamadas_em_andamento` for the key: `some slot` when an in-flight future
exists, holding the value or error it will be settled with (the future is
single-assignment, so a waiter awaiting it obtains exactly that settlement).
A caller finding an entry becomes a follower: it awaits the slot and makes
no upstream attempt.  Otherwise the caller leads: it publishes a future,
runs up to `maxRetries` attempts, and settles the future with the same
payload it returns, or the same error it raises (the table lookup at line
76 and the future publication at line 83 of the source have no intervening
`await`, so on the asyncio event loop lookup-or-create is atomic). -/
def http_get_dedup (emAndamento : Option (Except ErroReq (List Card)))
    (outcomes : List AttemptOutcome) (maxRetries : ℕ) : FetchResult :=
  match emAndamento with
  | some slot => { resultado := slot, settled := slot, tentativas := 0 }
  | none =>
    let r := loopTentativas (outcomes.take maxRetries) none
    { resultado := r.1, settled := r.1, tentativas := r.2 }

/-- Membership of a timestamp in the closed rolling window of length
`INTERVALO_SEGUNDOS` starting at `a`. -/
def naJanela (a s : ℚ) : Bool :=
  decide (a ≤ s ∧ s ≤ a + INTERVALO_SEGUNDOS)

/-- Role a caller ends up with in the deduplication table. -/
inductive Papel where
  | lider
  | seguidor
  deriving DecidableEq, Repr

/-- Model of `n` callers entering `http_get_dedup` for the same key while no prior
settlement for that key has completed, in their event-loop serialization
order.  The first caller finds `chamadas_em_andamento` empty and leads
(running the attempt sequence described by `outcomes`); every later caller
finds the published future and follows, awaiting the leader's settlement.
Each entry records the caller's role, the value or error its call yields,
and the number of upstream attempts it performs. -/
def chamadasConcorrentes (n : ℕ) (outcomes : List AttemptOutcome) :
    List (Papel × Except ErroReq (List Card) × ℕ) :=
  match n with
  | 0 => []
  | m + 1 =>
    let lr := http_get_dedup none outcomes MAX_RETRIES
    (Papel.lider, lr.resultado, lr.tentativas) ::
      List.replicate m
        (Papel.seguidor,
          (http_get_dedup (some lr.settled) outcomes MAX_RETRIES).resultado,
          (http_get_dedup (some lr.settled) outcomes MAX_RETRIES).tentativas)

/-- Constant `GLOBAL_CONCURRENCY_LIMIT`: capacity of `sem = asyncio.Semaphore(5)`. -/
def LIMITE_CONCORRENCIA : ℕ := 5

/-- Phase of one leader with respect to the outbound-call semaphore:
blocked on `async with sem` entry, inside the `with`-block holding a permit
(having issued some number of upstream attempts so far), or past the block
with the permit given back. -/
inductive FaseLider where
  | esperando
  | comPermissao (tentativasFeitas : ℕ)
  | finalizado
  deriving DecidableEq, Repr

/-- State of the coordinator: how many leaders are waiting for a permit,
the attempt counters of the leaders currently holding a permit, and how
many have finished. -/
structure EstadoCoordenador where
  esperando : ℕ
  ativos : List ℕ
  finalizados : ℕ
  deriving DecidableEq, Repr

/-- Number of leaders currently inside the `async with sem` block; every
upstream network call is issued from inside that block, so this bounds the
in-flight calls. -/
def emVoo (s : EstadoCoordenador) : ℕ :=
  s.ativos.length

/-- One scheduler step of the fetch coordinator: a waiting leader enters
the `with`-block only when fewer than `LIMITE_CONCORRENCIA` permits are
taken; a permit-holding leader issues one of its at most `MAX_RETRIES`
upstream attempts; a permit-holding leader exits the block — on success,
exhaustion or fault alike — giving its permit back.  Attempts are possible
only for permit holders, so a leader holds its permit for its whole attempt
sequence, and the only transition out of the holding phase releases. -/
inductive PassoCoordenador : EstadoCoordenador → EstadoCoordenador → Prop where
  | adquirir (e f : ℕ) (ativos : List ℕ)
      (h : ativos.length < LIMITE_CONCORRENCIA) :
      PassoCoordenador ⟨e + 1, ativos, f⟩ ⟨e, 0 :: ativos, f⟩
  | tentativa (e f k : ℕ) (l₁ l₂ : List ℕ) (hk : k < MAX_RETRIES) :
      PassoCoordenador ⟨e, l₁ ++ k :: l₂, f⟩ ⟨e, l₁ ++ (k + 1) :: l₂, f⟩
  | liberar (e f k : ℕ) (l₁ l₂ : List ℕ) :
      PassoCoordenador ⟨e, l₁ ++ k :: l₂, f⟩ ⟨e, l₁ ++ l₂, f + 1⟩

/-- Outcome of one `/carta` lookup, as far as the core is concerned. -/
inductive Resultado where
  | throttled
  | invalidQuery
  | upstreamFailure
  | notFound
  | ambiguous
  | found (c : Card)
  deriving DecidableEq, Repr

/-- What one lookup leaves behind: its outcome, the cache afterwards, and
whether `http_get_dedup` was invoked. -/
structure LookupRes where
  resultado : Resultado
  cacheDepois : CacheMap
  fetchInvocado : Bool
  deriving DecidableEq, Repr

/-- Function `cache_get` followed by the `if carta:` truthiness test of the caller. -/
def cacheHit (chave : Chave) (m : CacheMap) : Option Card :=
  match cache_get chave m with
  | some c => if c.truthy then some c else none
  | none => none

/-- The lookup composition `procurar_carta_especifica`, with its
collaborators abstracted: `podeReq` is what `pode_fazer_requisicao`
answered for this user, `consulta` the parse of the command arguments
(`none` when `extrair_nome_e_numeracao` failed to match), and
`fetchResultado` the value or error `http_get_dedup` yields for this key on
a cache miss (`dados.get('data', []) or []` collapsed into the candidate
list).  Order of the source: rate check, parse-validity check
(`nome and numero and total is not None`), cache probe with truthiness,
coordinated fetch, empty-candidate check, selection, truthiness check of
the selected card, cache write. -/
def procurar_carta_especifica (podeReq : Bool)
    (consulta : Option (List RawChar × String × ℤ))
    (fetchResultado : Except ErroReq (List Card)) (cache : CacheMap) :
    LookupRes :=
  if !podeReq then ⟨.throttled, cache, false⟩
  else
    match consulta with
    | none => ⟨.invalidQuery, cache, false⟩
    | some (nome, numero, total) =>
      if nome = [] ∨ numero = "" then ⟨.invalidQuery, cache, false⟩
      else
        let chave := chave_cache nome numero total
        match cacheHit chave cache with
        | some carta => ⟨.found carta, cache, false⟩
        | none =>
          match fetchResultado with
          | .error _ => ⟨.upstreamFailure, cache, true⟩
          | .ok cartas =>
            if cartas = [] then ⟨.notFound, cache, true⟩
            else
              match selecionar_carta cartas total with
              | none => ⟨.ambiguous, cache, true⟩
              | some carta =>
                if carta.truthy then
                  ⟨.found carta, cache_set chave carta cache, true⟩
                else ⟨.ambiguous, cache, true⟩

/-!  Theorems. -/

theorem head?_cases {α : Type} (l : List α) :
    l.head? = none ∨ ∃ c, c ∈ l ∧ l.head? = some c := by
  cases l with
  | nil => exact Or.inl rfl
  | cons a as => exact Or.inr ⟨a, List.mem_cons_self a as, rfl⟩

/-- C1: `selecionar_carta` applies the four disambiguation rules in strict
order, first matching rule winning: a single truthy set id over the whole
list returns the first candidate; otherwise a unique exact `printedTotal`
match (or several sharing one set id) returns the first exact match;
otherwise the same for the ±1 tolerance subset; otherwise `none`.  On
`[A 101, B 102, C 103]` with target 102 it picks the set-B candidate, and on
`[A 100, B 102]` with target 101 it returns `none`. -/
theorem selecionar_carta_regras_em_ordem (cartas : List Card) (total : ℤ) :
    ((setIdsUnicos cartas).length = 1 →
      selecionar_carta cartas total = cartas.head?) ∧
    ((setIdsUnicos cartas).length ≠ 1 → (exatos cartas total).length = 1 →
      selecionar_carta cartas total = (exatos cartas total).head?) ∧
    ((setIdsUnicos cartas).length ≠ 1 → 1 < (exatos cartas total).length →
      (setIdsUnicos (exatos cartas total)).length = 1 →
      selecionar_carta cartas total = (exatos cartas total).head?) ∧
    ((setIdsUnicos cartas).length ≠ 1 → (exatos cartas total).length ≠ 1 →
      ¬(1 < (exatos cartas total).length ∧
          (setIdsUnicos (exatos cartas total)).length = 1) →
      (tol cartas total).length = 1 →
      selecionar_carta cartas total = (tol cartas total).head?) ∧
    ((setIdsUnicos cartas).length ≠ 1 → (exatos cartas total).length ≠ 1 →
      ¬(1 < (exatos cartas total).length ∧
          (setIdsUnicos (exatos cartas total)).length = 1) →
      (tol cartas total).length ≠ 1 → 1 < (tol cartas total).length →
      (setIdsUnicos (tol cartas total)).length = 1 →
      selecionar_carta cartas total = (tol cartas total).head?) ∧
    ((setIdsUnicos cartas).length ≠ 1 → (exatos cartas total).length ≠ 1 →
      ¬(1 < (exatos cartas total).length ∧
          (setIdsUnicos (exatos cartas total)).length = 1) →
      (tol cartas total).length ≠ 1 →
      ¬(1 < (tol cartas total).length ∧
          (setIdsUnicos (tol cartas total)).length = 1) →
      selecionar_carta cartas total = none) ∧
    selecionar_carta [mkCarta "A" 101, mkCarta "B" 102, mkCarta "C" 103] 102 =
      some (mkCarta "B" 102) ∧
    selecionar_carta [mkCarta "A" 100, mkCarta "B" 102] 101 = none := by
  refine ⟨?_, ?_, ?_, ?_, ?_, ?_, by decide, by decide⟩
  · intro h1
    simp [selecionar_carta, h1]
  · intro h1 h2
    simp [selecionar_carta, h1, h2]
  · intro h1 h2 h3
    simp [selecionar_carta, h1, h2, h3, Nat.ne_of_gt h2]
  · intro h1 h2 h3 h4
    simp [selecionar_carta, h1, h2, h3, h4]
  · intro h1 h2 h3 h4 h5 h6
    simp [selecionar_carta, h1, h2, h3, h4, h5, h6]
  · intro h1 h2 h3 h4 h5
    simp [selecionar_carta, h1, h2, h3, h4, h5]

theorem selecionar_carta_regras_em_ordem_witness :
    selecionar_carta [mkCarta "A" 101, mkCarta "B" 102, mkCarta "C" 103] 102 =
      (exatos [mkCarta "A" 101, mkCarta "B" 102, mkCarta "C" 103] 102).head? :=
  (selecionar_carta_regras_em_ordem
      [mkCarta "A" 101, mkCarta "B" 102, mkCarta "C" 103] 102).2.1
    (by decide) (by decide)

theorem dedup_constante {α : Type} [DecidableEq α] (l : List α) (s : α)
    (hne : s ∈ l) (hall : ∀ x ∈ l, x = s) : l.dedup = [s] := by
  have hd : ∀ x ∈ l.dedup, x = s := fun x hx => hall x (List.mem_dedup.mp hx)
  have hrep := List.eq_replicate_length.mpr hd
  have hlen : l.dedup.length ≤ 1 :=
    List.nodup_replicate.mp (hrep ▸ List.nodup_dedup l)
  have hsm : s ∈ l.dedup := List.mem_dedup.mpr hne
  cases hdl : l.dedup with
  | nil => rw [hdl] at hsm; cases hsm
  | cons a as =>
    cases as with
    | nil =>
      have := hd a (by rw [hdl]; exact List.mem_cons_self a [])
      rw [this]
    | cons b bs => rw [hdl] at hlen; simp at hlen

/-- C2: candidates whose set identifier is missing (absent `set` object,
absent `id`, or the falsy empty string) are ignored by the unique-set-id
grouping used by the rules, but still pass through the exact-`printedTotal`
filter on their numeric field alone; candidates with a missing or
non-integer `printedTotal` are excluded from the ±1 tolerance subset; and
when some candidates lack a set identifier while all remaining ones carry
one identical identifier, rule 1 fires and the first candidate of the whole
list is returned, even when that first candidate lacks an identifier. -/
theorem selecionar_carta_ids_ausentes (cartas l₁ l₂ : List Card)
    (c₀ : Card) (total : ℤ) (s : String)
    (h₀ : sidPresente c₀ = none)
    (hall : ∀ c ∈ cartas, sidPresente c = none ∨ sidPresente c = some s)
    (hex : ∃ c ∈ cartas, sidPresente c = some s) :
    (setIdsUnicos (l₁ ++ c₀ :: l₂) = setIdsUnicos (l₁ ++ l₂)) ∧
    (c₀ ∈ exatos (l₁ ++ c₀ :: l₂) total ↔ ptIgual (pt c₀) total = true) ∧
    (∀ c ∈ tol cartas total,
      ∃ n : ℤ, pt c = some (.int n) ∧ (n - total).natAbs ≤ 1) ∧
    selecionar_carta cartas total = cartas.head? := by
  refine ⟨?_, ?_, ?_, ?_⟩
  · simp [setIdsUnicos, List.filterMap_append, List.filterMap_cons, h₀]
  · constructor
    · intro hm
      exact (List.mem_filter.mp hm).2
    · intro hp
      exact List.mem_filter.mpr
        ⟨by simp [List.mem_append], hp⟩
  · intro c hm
    have hp := (List.mem_filter.mp hm).2
    unfold ptTolerante at hp
    cases hpt : pt c with
    | none => rw [hpt] at hp; simp at hp
    | some v =>
      cases v with
      | int n => exact ⟨n, rfl, by rw [hpt] at hp; simpa using hp⟩
      | naoInteiro => rw [hpt] at hp; simp at hp
  · have hids : setIdsUnicos cartas = [s] := by
      apply dedup_constante
      · obtain ⟨c, hc, hcs⟩ := hex
        exact List.mem_filterMap.mpr ⟨c, hc, hcs⟩
      · intro x hx
        obtain ⟨c, hc, hcs⟩ := List.mem_filterMap.mp hx
        rcases hall c hc with h | h
        · rw [h] at hcs; cases hcs
        · rw [h] at hcs; injection hcs with h'; exact h'.symm
    simp [selecionar_carta, hids]

theorem selecionar_carta_ids_ausentes_witness :
    selecionar_carta
        [{ set := none, outros := true }, mkCarta "A" 50, mkCarta "A" 60] 70 =
      ([{ set := none, outros := true }, mkCarta "A" 50, mkCarta "A" 60] :
        List Card).head? :=
  (selecionar_carta_ids_ausentes
      [{ set := none, outros := true }, mkCarta "A" 50, mkCarta "A" 60]
      [] [] { set := none, outros := true } 70 "A"
      (by decide) (by decide) (by decide)).2.2.2

/-- C10: `selecionar_carta` is total and conservative: on every candidate
list (the empty one included) and every target it returns `none` or an
element of the candidate list, and the rule-1 guard that indexes the whole
list already forces the list to be non-empty. -/
theorem selecionar_carta_total_e_membro (cartas : List Card) (total : ℤ) :
    (selecionar_carta cartas total = none ∨
      ∃ c, c ∈ cartas ∧ selecionar_carta cartas total = some c) ∧
    ((setIdsUnicos cartas).length = 1 → cartas ≠ []) := by
  constructor
  · have hex : ∀ c ∈ exatos cartas total, c ∈ cartas :=
      fun c hc => (List.mem_filter.mp hc).1
    have htl : ∀ c ∈ tol cartas total, c ∈ cartas :=
      fun c hc => (List.mem_filter.mp hc).1
    simp only [selecionar_carta]
    split_ifs with h1 h2 h3 h4 h5
    · rcases head?_cases cartas with h | ⟨c, hc, h⟩
      · exact Or.inl h
      · exact Or.inr ⟨c, hc, h⟩
    · rcases head?_cases (exatos cartas total) with h | ⟨c, hc, h⟩
      · exact Or.inl h
      · exact Or.inr ⟨c, hex c hc, h⟩
    · rcases head?_cases (exatos cartas total) with h | ⟨c, hc, h⟩
      · exact Or.inl h
      · exact Or.inr ⟨c, hex c hc, h⟩
    · rcases head?_cases (tol cartas total) with h | ⟨c, hc, h⟩
      · exact Or.inl h
      · exact Or.inr ⟨c, htl c hc, h⟩
    · rcases head?_cases (tol cartas total) with h | ⟨c, hc, h⟩
      · exact Or.inl h
      · exact Or.inr ⟨c, htl c hc, h⟩
    · exact Or.inl rfl
  · intro h1 hnil
    rw [hnil] at h1
    simp [setIdsUnicos] at h1

theorem selecionar_carta_total_e_membro_witness :
    ([mkCarta "A" 10] : List Card) ≠ [] :=
  (selecionar_carta_total_e_membro [mkCarta "A" 10] 0).2 (by decide)

theorem pyLower_normalizado (c : RawChar)
    (h : ¬(65 ≤ c.base ∧ c.base ≤ 90)) :
    pyLower (if c.maiuscula then paraMaiuscula c.base else c.base) = c.base := by
  unfold pyLower paraMaiuscula
  split_ifs <;> omega

/-- C9: two raw queries whose names differ only by letter case or by
accent/diacritic marks (same base letters, in a canonical form where the
base carries no uppercase letter) and whose number and total agree are
normalized to the same `QueryKey` — the lowercased, diacritics-stripped
base letters with the same number string and total — hence address the same
cache entry and the same in-flight deduplication slot. -/
theorem chave_cache_normaliza (n₁ n₂ : List RawChar) (numero : String)
    (total : ℤ)
    (hbase : n₁.map RawChar.base = n₂.map RawChar.base)
    (hcanon₁ : ∀ c ∈ n₁, ¬(65 ≤ c.base ∧ c.base ≤ 90))
    (hcanon₂ : ∀ c ∈ n₂, ¬(65 ≤ c.base ∧ c.base ≤ 90)) :
    chave_cache n₁ numero total = chave_cache n₂ numero total ∧
    (chave_cache n₁ numero total).1 = n₁.map RawChar.base ∧
    ∀ m : CacheMap,
      cache_get (chave_cache n₁ numero total) m =
        cache_get (chave_cache n₂ numero total) m := by
  have key : ∀ (n : List RawChar), (∀ c ∈ n, ¬(65 ≤ c.base ∧ c.base ≤ 90)) →
      (normalizar_texto n).map pyLower = n.map RawChar.base := by
    intro n hc
    unfold normalizar_texto
    rw [List.map_map]
    exact List.map_congr_left fun c hm => pyLower_normalizado c (hc c hm)
  have h₁ := key n₁ hcanon₁
  have h₂ := key n₂ hcanon₂
  have hk : chave_cache n₁ numero total = chave_cache n₂ numero total := by
    unfold chave_cache
    rw [h₁, h₂, hbase]
  exact ⟨hk, h₁, fun m => by rw [hk]⟩

theorem chave_cache_normaliza_witness :
    chave_cache [⟨112, false, 1⟩, ⟨111, false, 0⟩] "7" 33 =
      chave_cache [⟨112, true, 0⟩, ⟨111, false, 2⟩] "7" 33 :=
  (chave_cache_normaliza [⟨112, false, 1⟩, ⟨111, false, 0⟩]
      [⟨112, true, 0⟩, ⟨111, false, 2⟩] "7" 33
      (by decide) (by decide) (by decide)).1

theorem getLast?_cons_getD {α : Type} (xs : List α) (x y : α) :
    ((x :: xs).getLast?).getD y = (xs.getLast?).getD x := by
  cases xs with
  | nil => simp
  | cons b bs =>
    rw [List.getLast?_cons_cons]
    cases h : (b :: bs).getLast? with
    | none => simp at h
    | some v => simp

theorem loopTentativas_exaustao (l : List AttemptOutcome)
    (lastExc : Option ErroReq) (hf : ∀ o ∈ l, falhou o = true) :
    loopTentativas l lastExc =
      (.error ((ultimoErro l).getD (lastExc.getD .falhaDesconhecida)),
        l.length) := by
  induction l generalizing lastExc with
  | nil => simp [loopTentativas, ultimoErro]
  | cons o rest ih =>
    cases o with
    | ok dados =>
      have := hf _ (List.mem_cons_self _ _)
      simp [falhou] at this
    | rate429 =>
      have hrest : ∀ o ∈ rest, falhou o = true :=
        fun o ho => hf o (List.mem_cons_of_mem _ ho)
      simp [loopTentativas, ih lastExc hrest, ultimoErro,
        List.filterMap_cons]
    | exc e =>
      have hrest : ∀ o ∈ rest, falhou o = true :=
        fun o ho => hf o (List.mem_cons_of_mem _ ho)
      have hu : (ultimoErro (AttemptOutcome.exc e :: rest)).getD
            (lastExc.getD .falhaDesconhecida) =
          (ultimoErro rest).getD (ErroReq.httpErr e) := by
        simp only [ultimoErro, List.filterMap_cons]
        exact getLast?_cons_getD _ _ _
      simp [loopTentativas, ih (some (.httpErr e)) hrest, hu]

/-- C4: when every one of the `MAX_RETRIES` attempts fails (429, timeout,
transport failure, or non-2xx status), the leader makes exactly
`MAX_RETRIES` upstream attempts and no more, settles the key's future with
the last recorded exception (falling back to the
`RuntimeError("Falha desconhecida")` placeholder when no attempt raised an
exception, e.g. a pure run of 429s), raises that same error to its own
caller, and every follower awaiting the same slot — with whatever attempt
budget of its own — receives that identical error while performing zero
upstream attempts. -/
theorem http_get_dedup_exaustao (outcomes : List AttemptOutcome)
    (hlen : MAX_RETRIES ≤ outcomes.length)
    (hf : ∀ o ∈ outcomes.take MAX_RETRIES, falhou o = true) :
    (http_get_dedup none outcomes MAX_RETRIES).tentativas = MAX_RETRIES ∧
    (http_get_dedup none outcomes MAX_RETRIES).resultado =
      .error ((ultimoErro (outcomes.take MAX_RETRIES)).getD
        .falhaDesconhecida) ∧
    (http_get_dedup none outcomes MAX_RETRIES).settled =
      (http_get_dedup none outcomes MAX_RETRIES).resultado ∧
    ∀ outros : List AttemptOutcome,
      (http_get_dedup
          (some (http_get_dedup none outcomes MAX_RETRIES).settled)
          outros MAX_RETRIES).resultado =
        (http_get_dedup none outcomes MAX_RETRIES).resultado ∧
      (http_get_dedup
          (some (http_get_dedup none outcomes MAX_RETRIES).settled)
          outros MAX_RETRIES).tentativas = 0 := by
  have hrun := loopTentativas_exaustao (outcomes.take MAX_RETRIES) none hf
  have htake : (outcomes.take MAX_RETRIES).length = MAX_RETRIES := by
    rw [List.length_take]
    omega
  refine ⟨?_, ?_, rfl, fun outros => ⟨rfl, rfl⟩⟩
  · simp [http_get_dedup, hrun, htake]
  · simp [http_get_dedup, hrun]

theorem http_get_dedup_exaustao_witness :
    (http_get_dedup none [.exc 1, .rate429, .exc 2, .ok []]
        MAX_RETRIES).tentativas = MAX_RETRIES ∧
    (http_get_dedup none [.exc 1, .rate429, .exc 2, .ok []]
        MAX_RETRIES).resultado = .error (.httpErr 2) :=
  ⟨(http_get_dedup_exaustao [.exc 1, .rate429, .exc 2, .ok []]
      (by decide) (by decide)).1,
    by
      rw [(http_get_dedup_exaustao [.exc 1, .rate429, .exc 2, .ok []]
        (by decide) (by decide)).2.1]
      decide⟩

/-- C5: when `n ≥ 1` callers enter the coordinated fetch for one key while
no prior settlement for that key has completed, exactly one of them — the
first to run its (await-free, hence event-loop-atomic) lookup-or-create
section — is the leader; every other caller is a follower performing zero
upstream attempts, the total number of upstream attempts is exactly the
leader's, and all `n` callers obtain the identical settled value or
identical settled error. -/
theorem chamadas_concorrentes_coalescem (n : ℕ)
    (outcomes : List AttemptOutcome) (hn : 1 ≤ n) :
    (chamadasConcorrentes n outcomes).countP
        (fun e => decide (e.1 = Papel.lider)) = 1 ∧
    (∀ e ∈ chamadasConcorrentes n outcomes,
      e.1 = Papel.seguidor → e.2.2 = 0) ∧
    (∀ e₁ ∈ chamadasConcorrentes n outcomes,
      ∀ e₂ ∈ chamadasConcorrentes n outcomes, e₁.2.1 = e₂.2.1) ∧
    ((chamadasConcorrentes n outcomes).map (fun e => e.2.2)).sum =
      (http_get_dedup none outcomes MAX_RETRIES).tentativas := by
  obtain ⟨m, rfl⟩ : ∃ m, n = m + 1 := ⟨n - 1, by omega⟩
  have hmem : ∀ e ∈ chamadasConcorrentes (m + 1) outcomes,
      e = (Papel.lider, (http_get_dedup none outcomes MAX_RETRIES).resultado,
            (http_get_dedup none outcomes MAX_RETRIES).tentativas) ∨
      e = (Papel.seguidor,
            (http_get_dedup none outcomes MAX_RETRIES).resultado, 0) := by
    intro e he
    simp only [chamadasConcorrentes, List.mem_cons] at he
    rcases he with rfl | he
    · exact Or.inl rfl
    · right
      have := (List.mem_replicate.mp he).2
      rw [this]
      rfl
  refine ⟨?_, ?_, ?_, ?_⟩
  · simp [chamadasConcorrentes, List.countP_cons, List.countP_replicate]
  · intro e he hseg
    rcases hmem e he with rfl | rfl
    · cases hseg
    · rfl
  · intro e₁ h₁ e₂ h₂
    rcases hmem e₁ h₁ with rfl | rfl <;> rcases hmem e₂ h₂ with rfl | rfl <;> rfl
  · simp [chamadasConcorrentes, List.map_replicate, List.sum_replicate]
    exact Or.inr rfl

theorem chamadas_concorrentes_coalescem_witness :
    (chamadasConcorrentes 3 [.ok [mkCarta "A" 10]]).countP
        (fun e => decide (e.1 = Papel.lider)) = 1 :=
  (chamadas_concorrentes_coalescem 3 [.ok [mkCarta "A" 10]] (by decide)).1

theorem passo_preserva_limite {s t : EstadoCoordenador}
    (h : PassoCoordenador s t) (hs : emVoo s ≤ LIMITE_CONCORRENCIA) :
    emVoo t ≤ LIMITE_CONCORRENCIA := by
  cases h with
  | adquirir e f ativos hlt => simpa [emVoo] using hlt
  | tentativa e f k l₁ l₂ hk => simpa [emVoo] using hs
  | liberar e f k l₁ l₂ =>
    simp [emVoo] at hs ⊢
    omega

/-- C6: along every execution of the coordinator scheduler — whatever the
number of leaders and however their acquisitions, attempts and releases
interleave — the number of leaders inside the `async with sem` block (and
hence the number of upstream calls in flight, since every attempt is a
`tentativa` step available only to a permit holder and the holding phase is
left only through the releasing `liberar` step) never exceeds
`LIMITE_CONCORRENCIA = 5`. -/
theorem em_voo_nunca_excede_limite (n : ℕ) (s : EstadoCoordenador)
    (h : Relation.ReflTransGen PassoCoordenador ⟨n, [], 0⟩ s) :
    emVoo s ≤ LIMITE_CONCORRENCIA := by
  induction h with
  | refl => simp [emVoo]
  | tail _ hstep ih => exact passo_preserva_limite hstep ih

theorem em_voo_nunca_excede_limite_witness :
    emVoo ⟨7, [], 0⟩ ≤ LIMITE_CONCORRENCIA :=
  em_voo_nunca_excede_limite 7 ⟨7, [], 0⟩ Relation.ReflTransGen.refl

/-- C8: a lookup ending in Throttled, InvalidQuery, UpstreamFailure,
NotFound or Ambiguous leaves the cache exactly as it was, and the cache
changes only on the one path where the fetch succeeded with a non-empty
candidate list and the selector resolved a card — so a successful fetch
with zero candidates, or an ambiguous list, writes nothing. -/
theorem lookup_nao_cacheia_erros (podeReq : Bool)
    (consulta : Option (List RawChar × String × ℤ))
    (fetchResultado : Except ErroReq (List Card)) (cache : CacheMap) :
    (((procurar_carta_especifica podeReq consulta fetchResultado
          cache).resultado = .throttled ∨
      (procurar_carta_especifica podeReq consulta fetchResultado
          cache).resultado = .invalidQuery ∨
      (procurar_carta_especifica podeReq consulta fetchResultado
          cache).resultado = .upstreamFailure ∨
      (procurar_carta_especifica podeReq consulta fetchResultado
          cache).resultado = .notFound ∨
      (procurar_carta_especifica podeReq consulta fetchResultado
          cache).resultado = .ambiguous) →
      (procurar_carta_especifica podeReq consulta fetchResultado
          cache).cacheDepois = cache) ∧
    ((procurar_carta_especifica podeReq consulta fetchResultado
          cache).cacheDepois ≠ cache →
      ∃ (nome : List RawChar) (numero : String) (total : ℤ)
        (cartas : List Card) (c : Card),
        consulta = some (nome, numero, total) ∧
        fetchResultado = .ok cartas ∧ cartas ≠ [] ∧
        selecionar_carta cartas total = some c ∧
        (procurar_carta_especifica podeReq consulta fetchResultado
            cache).resultado = .found c ∧
        (procurar_carta_especifica podeReq consulta fetchResultado
            cache).cacheDepois =
          cache_set (chave_cache nome numero total) c cache) := by
  cases podeReq with
  | false => simp [procurar_carta_especifica]
  | true =>
    cases consulta with
    | none => simp [procurar_carta_especifica]
    | some q =>
      obtain ⟨nome, numero, total⟩ := q
      by_cases hv : nome = [] ∨ numero = ""
      · simp [procurar_carta_especifica, hv]
      · cases hch : cacheHit (chave_cache nome numero total) cache with
        | some carta => simp [procurar_carta_especifica, hv, hch]
        | none =>
          cases fetchResultado with
          | error e => simp [procurar_carta_especifica, hv, hch]
          | ok cartas =>
            by_cases hc : cartas = []
            · simp [procurar_carta_especifica, hv, hch, hc]
            · cases hsel : selecionar_carta cartas total with
              | none => simp [procurar_carta_especifica, hv, hch, hc, hsel]
              | some carta =>
                by_cases ht : carta.truthy
                · constructor
                  · intro habs
                    simp [procurar_carta_especifica, hv, hch, hc, hsel,
                      ht] at habs
                  · intro _
                    exact ⟨nome, numero, total, cartas, carta, rfl, rfl, hc,
                      hsel, by simp [procurar_carta_especifica, hv, hch, hc,
                        hsel, ht], by simp [procurar_carta_especifica, hv,
                        hch, hc, hsel, ht]⟩
                · simp [procurar_carta_especifica, hv, hch, hc, hsel, ht]

theorem lookup_nao_cacheia_erros_witness :
    (procurar_carta_especifica false none (Except.ok [])
        ([] : CacheMap)).cacheDepois = ([] : CacheMap) :=
  (lookup_nao_cacheia_erros false none (Except.ok []) []).1
    (Or.inl (by decide))

theorem cache_get_set_mesma (chave : Chave) (c : Card) (m : CacheMap) :
    cache_get chave (cache_set chave c m) = some c := by
  induction m with
  | nil => simp [cache_get, cache_set]
  | cons kv rest ih =>
    obtain ⟨k, c'⟩ := kv
    by_cases h : k = chave
    · simp [cache_set, h, cache_get]
    · simp [cache_set, h, cache_get, ih]

theorem encontrada_fica_no_cache (nome : List RawChar) (numero : String)
    (total : ℤ) (fetch : Except ErroReq (List Card)) (cache : CacheMap)
    (c : Card)
    (h : (procurar_carta_especifica true (some (nome, numero, total)) fetch
        cache).resultado = .found c) :
    nome ≠ [] ∧ numero ≠ "" ∧
      cacheHit (chave_cache nome numero total)
        (procurar_carta_especifica true (some (nome, numero, total)) fetch
          cache).cacheDepois = some c := by
  by_cases hv : nome = [] ∨ numero = ""
  · exfalso
    simp [procurar_carta_especifica, hv] at h
  · have hn : nome ≠ [] := fun he => hv (Or.inl he)
    have hm : numero ≠ "" := fun he => hv (Or.inr he)
    refine ⟨hn, hm, ?_⟩
    cases hch : cacheHit (chave_cache nome numero total) cache with
    | some carta =>
      have hcc : carta = c := by
        simpa [procurar_carta_especifica, hv, hch] using h
      simp [procurar_carta_especifica, hv, hch, hcc]
    | none =>
      cases fetch with
      | error e =>
        exfalso
        simp [procurar_carta_especifica, hv, hch] at h
      | ok cartas =>
        by_cases hc : cartas = []
        · exfalso
          simp [procurar_carta_especifica, hv, hch, hc] at h
        · cases hsel : selecionar_carta cartas total with
          | none =>
            exfalso
            simp [procurar_carta_especifica, hv, hch, hc, hsel] at h
          | some carta =>
            by_cases ht : carta.truthy
            · have hcc : carta = c := by
                simpa [procurar_carta_especifica, hv, hch, hc, hsel, ht]
                  using h
              subst hcc
              have hstep : (procurar_carta_especifica true
                    (some (nome, numero, total)) (Except.ok cartas)
                    cache).cacheDepois =
                  cache_set (chave_cache nome numero total) carta cache := by
                simp [procurar_carta_especifica, hv, hch, hc, hsel, ht]
              rw [hstep]
              unfold cacheHit
              rw [cache_get_set_mesma]
              simp [ht]
            · exfalso
              simp [procurar_carta_especifica, hv, hch, hc, hsel, ht] at h

/-- C7: once a lookup for a key succeeded (a card was found for it, by
cache hit or by fetch, selection and store), every subsequent admitted
lookup whose normalized query yields the same key returns that cached card
from the cache, without invoking the coordinated fetch and without touching
the cache. -/
theorem lookup_idempotente_apos_sucesso (nome nome₂ : List RawChar)
    (numero numero₂ : String) (total total₂ : ℤ)
    (fetch₁ fetch₂ : Except ErroReq (List Card)) (cache : CacheMap)
    (c : Card)
    (h₁ : (procurar_carta_especifica true (some (nome, numero, total))
        fetch₁ cache).resultado = .found c)
    (hkey : chave_cache nome₂ numero₂ total₂ =
      chave_cache nome numero total) :
    procurar_carta_especifica true (some (nome₂, numero₂, total₂)) fetch₂
        (procurar_carta_especifica true (some (nome, numero, total)) fetch₁
          cache).cacheDepois =
      ⟨.found c,
        (procurar_carta_especifica true (some (nome, numero, total)) fetch₁
          cache).cacheDepois,
        false⟩ := by
  obtain ⟨hn, hm, hhit⟩ :=
    encontrada_fica_no_cache nome numero total fetch₁ cache c h₁
  have hlen : nome₂.length = nome.length := by
    have h' := congrArg (fun k : Chave => k.1.length) hkey
    simpa [chave_cache, normalizar_texto] using h'
  have hn₂ : nome₂ ≠ [] := by
    intro he
    apply hn
    rw [he] at hlen
    exact List.length_eq_zero.mp hlen.symm
  have hnum : numero₂ = numero := congrArg (fun k : Chave => k.2.1) hkey
  have hm₂ : numero₂ ≠ "" := by
    rw [hnum]
    exact hm
  have hv₂ : ¬(nome₂ = [] ∨ numero₂ = "") := by
    rintro (he | he)
    · exact hn₂ he
    · exact hm₂ he
  generalize hD : (procurar_carta_especifica true (some (nome, numero, total))
      fetch₁ cache).cacheDepois = D at hhit ⊢
  simp [procurar_carta_especifica, hv₂, hkey, hhit]

theorem mem_admitidas (dq times : List ℚ) (s : ℚ)
    (h : s ∈ admitidas dq times) : s ∈ times := by
  induction times generalizing dq with
  | nil => simp [admitidas] at h
  | cons t ts ih =>
    simp only [admitidas] at h
    split_ifs at h with hadm
    · rcases List.mem_cons.mp h with rfl | h'
      · exact List.mem_cons_self _ _
      · exact List.mem_cons_of_mem _ (ih _ h')
    · exact List.mem_cons_of_mem _ (ih _ h)

theorem admitidas_janela (times : List ℚ)
    (hsorted : List.Sorted (· ≤ ·) times) :
    ∀ (dq : List ℚ) (a : ℚ), dq.length ≤ MAX_CHAMADAS →
      dq.countP (naJanela a) + (admitidas dq times).countP (naJanela a) ≤
        MAX_CHAMADAS := by
  induction times with
  | nil =>
    intro dq a hlen
    simpa [admitidas] using le_trans (List.countP_le_length _) hlen
  | cons t ts ih =>
    intro dq a hlen
    obtain ⟨hle, hsts⟩ := List.sorted_cons.mp hsorted
    by_cases hjan : a + INTERVALO_SEGUNDOS < t
    · have hzero : (admitidas dq (t :: ts)).countP (naJanela a) = 0 := by
        rw [List.countP_eq_zero]
        intro s hs
        have hst : t ≤ s := by
          rcases List.mem_cons.mp (mem_admitidas dq (t :: ts) s hs) with
            rfl | h'
          · exact le_refl s
          · exact hle s h'
        simp only [naJanela, decide_eq_true_eq]
        intro hcon
        exact absurd hcon.2 (by linarith)
      rw [hzero]
      simpa using le_trans (List.countP_le_length _) hlen
    · push_neg at hjan
      set dq2 := dq.dropWhile
        (fun s => decide (t - s > INTERVALO_SEGUNDOS)) with hdq2
      have hdq2len : dq2.length ≤ dq.length :=
        (List.dropWhile_sublist _).length_le
      have hsplit : dq.countP (naJanela a) = dq2.countP (naJanela a) := by
        conv_lhs => rw [← List.takeWhile_append_dropWhile
          (fun s => decide (t - s > INTERVALO_SEGUNDOS)) dq]
        rw [List.countP_append, ← hdq2]
        have htw : (dq.takeWhile
            (fun s => decide (t - s > INTERVALO_SEGUNDOS))).countP
            (naJanela a) = 0 := by
          rw [List.countP_eq_zero]
          intro s hs
          have hp := List.mem_takeWhile_imp hs
          simp only [decide_eq_true_eq] at hp
          simp only [naJanela, decide_eq_true_eq]
          intro hcon
          have : s < a := by linarith [hcon.1]
          linarith [hcon.1]
        rw [htw, Nat.zero_add]
      by_cases hadm : dq2.length < MAX_CHAMADAS
      · have hstep : admitidas dq (t :: ts) =
            t :: admitidas (dq2 ++ [t]) ts := by
          simp [admitidas, pode_fazer_requisicao, ← hdq2, hadm]
        have ihx := ih hsts (dq2 ++ [t]) a (by
          rw [List.length_append]
          simpa using hadm)
        rw [List.countP_append] at ihx
        rw [hstep, List.countP_cons, hsplit]
        simp only [List.countP_cons, List.countP_nil, Nat.zero_add] at ihx
        omega
      · have hstep : admitidas dq (t :: ts) = admitidas dq2 ts := by
          simp [admitidas, pode_fazer_requisicao, ← hdq2, hadm]
        rw [hstep, hsplit]
        exact ih hsts dq2 a (le_trans hdq2len hlen)

/-- C3: the rate limiter prunes timestamps older than
`INTERVALO_SEGUNDOS = 60` seconds first and admits (recording the current
time) exactly when the post-prune count is below `MAX_CHAMADAS = 10` — in
particular a call finding a full post-prune deque is rejected with nothing
recorded.  Consequently, over any nondecreasing sequence of call instants
of one user, at most `MAX_CHAMADAS` calls are admitted within any rolling
window of length `INTERVALO_SEGUNDOS`, so an eleventh call inside such a
window cannot return true. -/
theorem rate_limit_janela_deslizante (times : List ℚ)
    (hsorted : List.Sorted (· ≤ ·) times) (a : ℚ) :
    (admitidas [] times).countP (naJanela a) ≤ MAX_CHAMADAS ∧
    ∀ (agora : ℚ) (dq : List ℚ),
      MAX_CHAMADAS ≤ (dq.dropWhile
        (fun t => decide (agora - t > INTERVALO_SEGUNDOS))).length →
      pode_fazer_requisicao agora dq =
        (false, dq.dropWhile
          (fun t => decide (agora - t > INTERVALO_SEGUNDOS))) := by
  constructor
  · simpa using admitidas_janela times hsorted [] a (by simp [MAX_CHAMADAS])
  · intro agora dq hfull
    simp only [pode_fazer_requisicao]
    rw [if_neg (by omega)]

theorem rate_limit_janela_deslizante_witness :
    (admitidas [] [(0 : ℚ), 1, 2]).countP (naJanela 0) ≤ MAX_CHAMADAS :=
  (rate_limit_janela_deslizante [0, 1, 2]
    (by simp [List.sorted_cons]) 0).1

theorem lookup_idempotente_apos_sucesso_witness :
    procurar_carta_especifica true
        (some ([⟨112, true, 1⟩], "1", (10 : ℤ))) (Except.error .falhaDesconhecida)
        (procurar_carta_especifica true
          (some ([⟨112, false, 0⟩], "1", (10 : ℤ)))
          (Except.ok [mkCarta "A" 10]) []).cacheDepois =
      ⟨.found (mkCarta "A" 10),
        (procurar_carta_especifica true
          (some ([⟨112, false, 0⟩], "1", (10 : ℤ)))
          (Except.ok [mkCarta "A" 10]) []).cacheDepois,
        false⟩ :=
  lookup_idempotente_apos_sucesso [⟨112, false, 0⟩] [⟨112, true, 1⟩]
    "1" "1" 10 10 (Except.ok [mkCarta "A" 10])
    (Except.error .falhaDesconhecida) [] (mkCarta "A" 10)
    (by decide) (by decide)

end Pokebot
